import Mathlib

/-!
Verification development for the AAL960 / STMP-960 metrology-monitoring
repository.  The Python sources are shallowly embedded: byte streams become
`List ℕ` (each element a byte value), IEEE-754 binary32 fields are decoded to
their exact rational value (`Option ℚ`, `none` for infinities and NaNs),
mutable GUI state becomes explicit state records, and wall-clock reads become
explicit time parameters.
-/

namespace AAL960

/-! ## Protocol layer (`aal960_protocol.py`, duplicated in `9999.py`) -/

/-- Fixed station address (`ADDR = 0x01`). -/
def ADDR : ℕ := 0x01

/-- XOR checksum, `cs` in the source: `reduce(xor, data, 0)`. -/
def cs (data : List ℕ) : ℕ := data.foldl (fun x y => x ^^^ y) 0

/-- One step of `read_frame`'s `while ser.in_waiting >= 20` loop, with explicit
fuel standing for the (finite) number of loop iterations.  The stream is the
list of bytes still unread; `ser.read(k)` becomes `take k`/`drop k`.  Mirrors
`FrameParser960.read_frame`:
* loop guard: at least 20 bytes waiting, else return `None`;
* read 2 bytes, compare to the preamble `0x55 0x55`, `continue` on mismatch
  (both bytes stay consumed);
* read 2 header bytes (address, length); `continue` if the address differs
  from `ADDR`;
* read `length + 3` bytes (payload, checksum, trailer); return `None` if the
  stream is too short;
* `continue` when the trailer is not `0xAA 0xAA` or the checksum of
  `[ADDR, length] ++ data` does not match; otherwise return the payload. -/
def readFrameAux : ℕ → List ℕ → Option (List ℕ)
  | 0, _ => none
  | fuel + 1, s =>
    if 20 ≤ s.length then
      match s with
      | b0 :: b1 :: rest1 =>
        if b0 = 0x55 ∧ b1 = 0x55 then
          match rest1 with
          | addr :: len :: rest2 =>
            if addr = ADDR then
              let chunk := rest2.take (len + 3)
              if chunk.length < len + 3 then none
              else
                let data := chunk.take len
                let recvCs := chunk.getD len 0
                let trail := chunk.drop (len + 1)
                if trail = [0xAA, 0xAA] then
                  if recvCs = cs (ADDR :: len :: data) then some data
                  else readFrameAux fuel (rest2.drop (len + 3))
                else readFrameAux fuel (rest2.drop (len + 3))
            else readFrameAux fuel rest2
          | _ => none
        else readFrameAux fuel rest1
      | _ => none
    else none

/-- `read_frame(ser)`: run the scanning loop on the waiting bytes.  Every loop
iteration consumes at least two bytes, so `s.length` iterations of fuel are
always enough for the loop to reach its exit condition. -/
def read_frame (s : List ℕ) : Option (List ℕ) := readFrameAux s.length s

/-- A wire frame as described by the protocol: preamble `0x55 0x55`, address,
length byte, payload, XOR checksum of `{address, length, payload bytes}`,
trailer `0xAA 0xAA`. -/
def mkFrame (addr : ℕ) (payload : List ℕ) : List ℕ :=
  0x55 :: 0x55 :: addr :: payload.length ::
    (payload ++ [cs (addr :: payload.length :: payload)] ++ [0xAA, 0xAA])

example : read_frame (mkFrame ADDR (List.replicate 13 0)) =
    some (List.replicate 13 0) := by decide
example : read_frame ((0 : ℕ) :: mkFrame ADDR (List.replicate 13 0)) = none := by
  decide
example : read_frame (mkFrame 0 (List.replicate 13 0)) = none := by decide

/-! ## Measurement decoder (`FrameParser960.parse_payload`) -/

/-- Measurement mode tag: `"I/P"`, `"V/P"`, `"Реле"` in the source. -/
inductive Mode
  | IP
  | VP
  | Relay
  deriving DecidableEq

/-- Exact value of a big-endian IEEE-754 binary32 read by
`struct.unpack(">f", ...)`, as a rational.  `none` models the non-finite
values (infinities and NaNs, exponent field all ones); every finite float is
represented exactly. -/
def decodeF32 (b0 b1 b2 b3 : ℕ) : Option ℚ :=
  let w : ℕ := (b0 % 256) * 2 ^ 24 + (b1 % 256) * 2 ^ 16 + (b2 % 256) * 2 ^ 8 + b3 % 256
  let sign : ℕ := w / 2 ^ 31
  let ex : ℕ := (w / 2 ^ 23) % 2 ^ 8
  let frac : ℕ := w % 2 ^ 23
  if ex = 255 then none
  else
    let mag : ℚ :=
      if ex = 0 then (frac : ℚ) / 2 ^ 23 * (2 ^ 126 : ℚ)⁻¹
      else (1 + (frac : ℚ) / 2 ^ 23) * 2 ^ ex / 2 ^ 127
    some (if sign = 1 then -mag else mag)

/-- A unit string as produced by the source's lookups: an entry of `UNITS_P`,
an entry of `UNITS_E`, the `f"0x{b:02X}"` fallback, the relay strings
`"замкнут"`/`"разомкнут"`, or the `f"реле 0x{b:02X}"` fallback.  Each
constructor keeps the raw byte so distinct strings stay distinct. -/
inductive UnitTag
  | ptable : ℕ → UnitTag
  | etable : ℕ → UnitTag
  | hexRaw : ℕ → UnitTag
  | relayClosed
  | relayOpen
  | relayRaw : ℕ → UnitTag
  deriving DecidableEq

/-- Key set of the pressure-unit table `UNITS_P`. -/
def UNITS_P_keys : List ℕ := [0x00, 0x01, 0x02, 0x03, 0x04, 0x05, 0x06, 0x07, 0x0A, 0x0B, 0x0C]

/-- `UNITS_P.get(b, f"0x{b:02X}")`. -/
def unitsPGet (b : ℕ) : UnitTag :=
  if b ∈ UNITS_P_keys then .ptable b else .hexRaw b

/-- `UNITS_E.get(b, f"0x{b:02X}")` (table keys `0x08` mA, `0x09` V). -/
def unitsEGet (b : ℕ) : UnitTag :=
  if b = 0x08 ∨ b = 0x09 then .etable b else .hexRaw b

/-- The `signal` field: a float for I/P and V/P, a boolean for the two known
relay codes, the raw code byte otherwise. -/
inductive SignalVal
  | num : Option ℚ → SignalVal
  | flag : Bool → SignalVal
  | code : ℕ → SignalVal
  deriving DecidableEq

/-- The `Measurement` dataclass of `aal960_protocol.py`. -/
structure Measurement where
  mode : Mode
  pressure : Option ℚ
  pressure_unit : UnitTag
  signal : SignalVal
  signal_unit : UnitTag
  relay_state : Option Bool
  raw : List ℕ
  deriving DecidableEq

/-- `FrameParser960.parse_payload`: dispatch on payload length 13 and the
3-byte header; headers `30 15 01` (I/P), `30 16 01` (V/P), `30 17 01` (relay);
anything else yields no measurement. -/
def parse_payload (data : List ℕ) : Option Measurement :=
  if data.length ≠ 13 then none
  else
    let header := data.take 3
    if header = [0x30, 0x15, 0x01] ∨ header = [0x30, 0x16, 0x01] then
      let p := decodeF32 (data.getD 3 0) (data.getD 4 0) (data.getD 5 0) (data.getD 6 0)
      let sec := decodeF32 (data.getD 8 0) (data.getD 9 0) (data.getD 10 0) (data.getD 11 0)
      let pUnit := unitsPGet (data.getD 7 0)
      let secUnit := unitsEGet (data.getD 12 0)
      let mode := if header = [0x30, 0x15, 0x01] then Mode.IP else Mode.VP
      some ⟨mode, p, pUnit, .num sec, secUnit, none, data⟩
    else if header = [0x30, 0x17, 0x01] then
      let p := decodeF32 (data.getD 3 0) (data.getD 4 0) (data.getD 5 0) (data.getD 6 0)
      let pUnit := unitsPGet (data.getD 7 0)
      let code := data.getD 12 0
      if code = 0x03 then some ⟨.Relay, p, pUnit, .flag true, .relayClosed, some true, data⟩
      else if code = 0x04 then some ⟨.Relay, p, pUnit, .flag false, .relayOpen, some false, data⟩
      else some ⟨.Relay, p, pUnit, .code code, .relayRaw code, none, data⟩
    else none

example :
    (parse_payload [0x30, 0x15, 0x01, 0x40, 0xA0, 0, 0, 0x07, 0x41, 0x40, 0, 0, 0x08]).map
      (fun m => (m.pressure, m.signal)) =
    some (some 5, .num (some 12)) := by
  norm_num [parse_payload, decodeF32]
example : parse_payload [0x30, 0x18, 0x01, 0, 0, 0, 0, 0, 0, 0, 0, 0, 0] = none := by
  norm_num [parse_payload]
example : parse_payload (List.replicate 12 0) = none := by norm_num [parse_payload]

/-! ## Calibration engine (`CalibratorGUI` in `9999.py`) -/

/-- Python's built-in `round` to an integer: round half to even. -/
def pyRound (x : ℚ) : ℤ :=
  let f := ⌊x⌋
  let r := x - f
  if r < 1 / 2 then f
  else if 1 / 2 < r then f + 1
  else if f % 2 = 0 then f else f + 1

/-- `round(x, 6)` as used in `build_target_plan`. -/
def round6 (x : ℚ) : ℚ := (pyRound (x * 1000000) : ℚ) / 1000000

/-- `CalibratorGUI.build_target_plan`: empty when `n < 2` or `high == low`;
otherwise `n` forward values `round(low + i*step, 6)` with
`step = (high-low)/(n-1)`, plus `forward[-2::-1]` (the forward leg reversed
without its last element) when the reverse flag is set.  The GUI text-field
reads become the explicit arguments; the `except` clause catches only parse
errors of those text fields. -/
def build_target_plan (low high : ℚ) (n : ℤ) (rev : Bool) : List ℚ :=
  if n < 2 ∨ high = low then []
  else
    let step := (high - low) / ((n : ℚ) - 1)
    let forward := (List.range n.toNat).map (fun i : ℕ => round6 (low + (i : ℚ) * step))
    if rev then forward ++ forward.dropLast.reverse
    else forward

/-- One fixed calibration point, the dict built in `fix_point`.  The formatted
wall-clock string `datetime.now().strftime(...)` is kept as the numeric
timestamp `wall`; `ok` is `true` for `"Соответствует"` (Pass). -/
structure CalibPoint where
  idx : ℕ
  wall : ℚ
  p_set : ℚ
  p_et : ℚ
  signal : ℚ
  p_calc : Option ℚ
  pg : Option ℚ
  ok : Bool
  t : ℚ
  deriving DecidableEq

/-- The engine-side mutable state of `CalibratorGUI`: the target plan, the
fixed points, and the run's time origin `calib_t0`. -/
structure EngineState where
  points_plan : List ℚ
  calib_points : List CalibPoint
  calib_t0 : Option ℚ
  deriving DecidableEq

/-- `CalibratorGUI.fix_point`.  The live measurement values
(`current_mode`, `current_p`, `current_signal`), the DUT range fields and the
tolerance field are passed explicitly; the two `time.time()` reads are modelled
by the single instant `now`.  This definition builds
the point dict appended by the non-exhausted branch. -/
def fix_point_candidate (st : EngineState) (low high maxErr : ℚ) (mode : Mode)
    (currentP currentSignal : ℚ) (now : ℚ) : CalibPoint :=
  let idx := st.calib_points.length
  let pSet := st.points_plan.getD idx currentP
  let span := if |high - low| = 0 then 1 else |high - low|
  let pCalc : Option ℚ :=
    match mode with
    | .IP => some (low + (currentSignal - 4) * span / 16)
    | .VP => some (low + currentSignal * span / 10)
    | .Relay => none
  let pg : Option ℚ := pCalc.map (fun pc => |pc - currentP| / span * 100)
  let ok : Bool :=
    match pg with
    | none => true
    | some e => decide (e ≤ maxErr)
  let t0 := st.calib_t0.getD now
  let tRel := now - t0
  ⟨idx + 1, now, pSet, currentP, currentSignal, pCalc, pg, ok, tRel⟩

/-- `CalibratorGUI.fix_point`: `none` models the guard's early `return` (the
plan-exhausted outcome, which leaves the state untouched); otherwise set the
time origin if unset and append the candidate point. -/
def fix_point (st : EngineState) (low high maxErr : ℚ) (mode : Mode)
    (currentP currentSignal : ℚ) (now : ℚ) : Option EngineState :=
  if st.calib_points.length ≥ st.points_plan.length then none
  else
    some { st with
      calib_points :=
        st.calib_points ++ [fix_point_candidate st low high maxErr mode currentP currentSignal now]
      calib_t0 := some (st.calib_t0.getD now) }

/-- `CalibratorGUI.undo_last_point`: early `return` when no points are fixed;
otherwise `pop()` the last point and clear `calib_t0` when the run becomes
empty. -/
def undo_last_point (st : EngineState) : EngineState :=
  if st.calib_points = [] then st
  else
    let pts := st.calib_points.dropLast
    { st with calib_points := pts
              calib_t0 := if pts = [] then none else st.calib_t0 }

/-! ## Monitoring buffer (`CalibratorGUI.update_monitor` and friends) -/

/-- The monitoring state of `CalibratorGUI`: the enable/pause flags, the time
origin, the four parallel sample lists, the running min/max, and the three
display variables (`mon_min_var`, `mon_max_var`, `mon_span_var`; `none`
renders as `"—"`). -/
structure MonState where
  monitor_enabled : Bool
  monitor_paused : Bool
  monitor_t0 : Option ℚ
  monitor_times : List ℚ
  monitor_pressures : List ℚ
  monitor_signals : List ℚ
  monitor_pg : List ℚ
  monitor_min : Option ℚ
  monitor_max : Option ℚ
  mon_min_var : Option ℚ
  mon_max_var : Option ℚ
  mon_span_var : Option ℚ
  deriving DecidableEq

/-- `CalibratorGUI.update_monitor(p)`: no-op unless enabled and not paused;
set `monitor_t0` on first use; append `(t, p, current_signal, 0.0)`; when more
than 5000 samples accumulated keep the last 5000 of each list (`l[-5000:]`);
update the running min/max by comparison with `p` alone; refresh the three
display variables.  `current_signal` is the GUI field read by the method and
`now` stands for the `time.time()` reads. -/
def update_monitor (st : MonState) (currentSignal : ℚ) (now p : ℚ) : MonState :=
  if ¬st.monitor_enabled ∨ st.monitor_paused then st
  else
    let t0 := st.monitor_t0.getD now
    let t := now - t0
    let times := st.monitor_times ++ [t]
    let pressures := st.monitor_pressures ++ [p]
    let signals := st.monitor_signals ++ [currentSignal]
    let pgs := st.monitor_pg ++ [0]
    let times' := if 5000 < times.length then times.drop (times.length - 5000) else times
    let pressures' :=
      if 5000 < times.length then pressures.drop (pressures.length - 5000) else pressures
    let signals' :=
      if 5000 < times.length then signals.drop (signals.length - 5000) else signals
    let pgs' := if 5000 < times.length then pgs.drop (pgs.length - 5000) else pgs
    let mn :=
      match st.monitor_min with
      | none => some p
      | some m => if p < m then some p else some m
    let mx :=
      match st.monitor_max with
      | none => some p
      | some m => if m < p then some p else some m
    { st with
      monitor_t0 := some t0
      monitor_times := times'
      monitor_pressures := pressures'
      monitor_signals := signals'
      monitor_pg := pgs'
      monitor_min := mn
      monitor_max := mx
      mon_min_var := mn
      mon_max_var := mx
      mon_span_var :=
        match mn, mx with
        | some a, some b => some (b - a)
        | _, _ => none }

/-- `CalibratorGUI.start_monitoring`: enable, un-pause, set the time origin,
clear all sample lists, statistics and display variables. -/
def start_monitoring (_st : MonState) (now : ℚ) : MonState :=
  { monitor_enabled := true
    monitor_paused := false
    monitor_t0 := some now
    monitor_times := []
    monitor_pressures := []
    monitor_signals := []
    monitor_pg := []
    monitor_min := none
    monitor_max := none
    mon_min_var := none
    mon_max_var := none
    mon_span_var := none }

/-- `CalibratorGUI.reset_monitoring`: disable, un-pause, clear the time
origin, all sample lists, statistics and display variables. -/
def reset_monitoring (_st : MonState) : MonState :=
  { monitor_enabled := false
    monitor_paused := false
    monitor_t0 := none
    monitor_times := []
    monitor_pressures := []
    monitor_signals := []
    monitor_pg := []
    monitor_min := none
    monitor_max := none
    mon_min_var := none
    mon_max_var := none
    mon_span_var := none }

/-- Feed a list of `(now, pressure)` samples through `update_monitor`;
`currentSignal` stays fixed across the run. -/
def monitor_run (st : MonState) (currentSignal : ℚ) (ins : List (ℚ × ℚ)) : MonState :=
  ins.foldl (fun s i => update_monitor s currentSignal i.1 i.2) st

/-! ## Application-level fault handling (`poll_loop` / `disconnect`) -/

/-- `CalibratorGUI.clear_points`: behind an `askyesno` confirmation dialog
(the `confirm` argument); on yes, clear the fixed points and the time origin
and rerun `update_plan`, which rebuilds the plan from the DUT fields and
clears the points and time origin again. -/
def clear_points (confirm : Bool) (low high : ℚ) (n : ℤ) (rev : Bool)
    (st : EngineState) : EngineState :=
  if confirm then
    { points_plan := build_target_plan low high n rev
      calib_points := []
      calib_t0 := none }
  else st

/-- The application state relevant to fault handling: the engine, the
monitoring buffer, and the poll-loop's `running` flag. -/
structure AppState where
  engine : EngineState
  mon : MonState
  running : Bool
  deriving DecidableEq

/-- `CalibratorGUI.disconnect`: stop the poll loop, close the port, then call
`reset_monitoring()` and `clear_points()` (the latter behind its confirmation
dialog).  `low high n rev` are the DUT fields read by the plan rebuild. -/
def disconnect (confirm : Bool) (low high : ℚ) (n : ℤ) (rev : Bool)
    (st : AppState) : AppState :=
  { running := false
    mon := reset_monitoring st.mon
    engine := clear_points confirm low high n rev st.engine }

/-- `CalibratorGUI.poll_loop` on `serial.SerialException`: show the error box
and schedule `self.disconnect` — the whole fault handling is the `disconnect`
call. -/
def handle_fault (confirm : Bool) (low high : ℚ) (n : ℤ) (rev : Bool)
    (st : AppState) : AppState :=
  disconnect confirm low high n rev st

/-! ## Claim theorems -/

/-- C8: calling `fix_point` when the number of fixed points already equals the
plan length takes the exhausted branch — the distinguished `none` outcome that
models the guard's early `return` (the `PlanExhausted` failure): no point is
appended and no state (in particular no time origin) is produced or touched. -/
theorem c8_plan_exhausted (st : EngineState) (low high maxErr : ℚ) (mode : Mode)
    (currentP currentSignal now : ℚ)
    (hfull : st.calib_points.length = st.points_plan.length) :
    fix_point st low high maxErr mode currentP currentSignal now = none := by
  simp [fix_point, hfull]

/-- C8 witness: a concrete engine whose single plan slot is already filled. -/
theorem c8_plan_exhausted_witness :
    (EngineState.mk [0] [⟨1, 0, 0, 0, 0, none, none, true, 0⟩] (some 0)).calib_points.length =
      (EngineState.mk [0] [⟨1, 0, 0, 0, 0, none, none, true, 0⟩] (some 0)).points_plan.length
    ∧ fix_point (EngineState.mk [0] [⟨1, 0, 0, 0, 0, none, none, true, 0⟩] (some 0))
        0 10 1 .IP 5 12 3 = none :=
  ⟨rfl, c8_plan_exhausted _ 0 10 1 .IP 5 12 3 rfl⟩

/-- C7: `undo_last_point` is a no-op when no points are fixed; otherwise it
removes exactly the most recently fixed point and clears the time origin when
the run becomes empty; and from any state with a free plan slot, `fix_point`
followed by `undo_last_point` restores the fixed points, the plan, and the
cleared time origin of an initially empty run. -/
theorem c7_undo_roundtrip (st : EngineState) (low high maxErr : ℚ) (mode : Mode)
    (currentP currentSignal now : ℚ) :
    (st.calib_points = [] → undo_last_point st = st)
    ∧ (st.calib_points ≠ [] →
        (undo_last_point st).calib_points = st.calib_points.dropLast
        ∧ ((undo_last_point st).calib_points = [] → (undo_last_point st).calib_t0 = none))
    ∧ (st.calib_points.length < st.points_plan.length →
        ∃ st', fix_point st low high maxErr mode currentP currentSignal now = some st'
          ∧ (undo_last_point st').calib_points = st.calib_points
          ∧ (undo_last_point st').points_plan = st.points_plan
          ∧ (st.calib_points = [] → st.calib_t0 = none →
              (undo_last_point st').calib_t0 = st.calib_t0)) := by
  refine ⟨fun h => by simp [undo_last_point, h], fun h => ⟨by simp [undo_last_point, h], ?_⟩, ?_⟩
  · intro hempty
    simp only [undo_last_point, h, if_neg, if_false] at hempty ⊢
    simp_all
  · intro hfree
    refine ⟨_, if_neg (not_le.mpr hfree), ?_, ?_, ?_⟩
    · simp [undo_last_point]
    · simp [undo_last_point]
    · intro hempty ht0
      simp [undo_last_point, hempty, ht0]

/-- C7 witness: fix then undo on a concrete empty two-slot engine restores the
empty point list, the plan, and the cleared time origin. -/
theorem c7_undo_roundtrip_witness :
    (EngineState.mk [0, 10] [] none).calib_points.length <
      (EngineState.mk [0, 10] [] none).points_plan.length
    ∧ ∃ st', fix_point (EngineState.mk [0, 10] [] none) 0 10 1 .IP 5 12 3 = some st'
        ∧ (undo_last_point st').calib_points = []
        ∧ (undo_last_point st').points_plan = [0, 10]
        ∧ (undo_last_point st').calib_t0 = none := by
  refine ⟨by simp, ?_⟩
  obtain ⟨st', h1, h2, h3, h4⟩ :=
    (c7_undo_roundtrip (EngineState.mk [0, 10] [] none) 0 10 1 .IP 5 12 3).2.2 (by simp)
  exact ⟨st', h1, h2, h3, h4 rfl rfl⟩

/-- C9: the measurement decoder is total, and it returns a measurement exactly
for payloads of length 13 whose 3-byte header is `30 15 01`, `30 16 01`, or
`30 17 01`; every other payload yields no measurement. -/
theorem c9_decoder_domain (data : List ℕ) :
    (parse_payload data).isSome = true ↔
      data.length = 13 ∧
        (data.take 3 = [0x30, 0x15, 0x01] ∨ data.take 3 = [0x30, 0x16, 0x01] ∨
          data.take 3 = [0x30, 0x17, 0x01]) := by
  unfold parse_payload
  by_cases hlen : data.length = 13
  · by_cases hiv : data.take 3 = [0x30, 0x15, 0x01] ∨ data.take 3 = [0x30, 0x16, 0x01]
    · simp [hlen, hiv]
      tauto
    · by_cases hrel : data.take 3 = [0x30, 0x17, 0x01]
      · simp only [hlen, ne_eq, not_true_eq_false, if_false, hiv, hrel, if_true, if_pos]
        split_ifs <;> simp [hrel, hlen]
      · push_neg at hiv
        simp [hlen, hiv.1, hiv.2, hrel]
  · simp [hlen]

/-- C5 counterexample: a fault on a session holding one recorded monitoring
sample (pressure 5, with min/max statistics) wipes the sample and the
statistics — they do not remain inspectable as the claim states — and on a
session holding one fixed calibration point, confirming the clear-protocol
dialog raised by the fault-handling disconnect wipes the point as well. -/
theorem c5_fault_counterexample :
    (handle_fault false 0 10 5 false
        ⟨⟨[0, 10], [], none⟩,
          ⟨true, false, some 0, [0], [5], [12], [0], some 5, some 5, some 5, some 5, some 0⟩,
          true⟩).mon.monitor_pressures = []
    ∧ (AppState.mk ⟨[0, 10], [], none⟩
        ⟨true, false, some 0, [0], [5], [12], [0], some 5, some 5, some 5, some 5, some 0⟩
        true).mon.monitor_pressures = [5]
    ∧ (handle_fault false 0 10 5 false
        ⟨⟨[0, 10], [], none⟩,
          ⟨true, false, some 0, [0], [5], [12], [0], some 5, some 5, some 5, some 5, some 0⟩,
          true⟩).mon.monitor_min = none
    ∧ (handle_fault true 0 10 5 false
        ⟨⟨[0, 10], [⟨1, 0, 0, 5, 12, some 5, some 0, true, 0⟩], some 0⟩,
          ⟨true, false, some 0, [0], [5], [12], [0], some 5, some 5, some 5, some 5, some 0⟩,
          true⟩).engine.calib_points = []
    ∧ (AppState.mk ⟨[0, 10], [⟨1, 0, 0, 5, 12, some 5, some 0, true, 0⟩], some 0⟩
        ⟨true, false, some 0, [0], [5], [12], [0], some 5, some 5, some 5, some 5, some 0⟩
        true).engine.calib_points ≠ [] :=
  ⟨rfl, rfl, rfl, rfl, by simp⟩

/-- C5 amended: handling a fatal mid-stream I/O fault stops the poll loop and
additionally resets the monitoring buffer — previously recorded monitoring
samples and the min/max statistics are cleared, not preserved, whatever the
user answers.  Previously fixed calibration points and the run's time origin
are preserved when the user declines the `clear_points` confirmation dialog
raised during the fault-handling disconnect, and are cleared when the user
confirms it. -/
theorem c5_fault_amended (st : AppState) (confirm : Bool) (low high : ℚ) (n : ℤ)
    (rev : Bool) :
    (handle_fault confirm low high n rev st).running = false
    ∧ (handle_fault confirm low high n rev st).mon.monitor_times = []
    ∧ (handle_fault confirm low high n rev st).mon.monitor_pressures = []
    ∧ (handle_fault confirm low high n rev st).mon.monitor_min = none
    ∧ (handle_fault confirm low high n rev st).mon.monitor_max = none
    ∧ (handle_fault confirm low high n rev st).mon.monitor_enabled = false
    ∧ (handle_fault false low high n rev st).engine.calib_points = st.engine.calib_points
    ∧ (handle_fault false low high n rev st).engine.calib_t0 = st.engine.calib_t0
    ∧ (handle_fault true low high n rev st).engine.calib_points = []
    ∧ (handle_fault true low high n rev st).engine.calib_t0 = none :=
  ⟨rfl, rfl, rfl, rfl, rfl, rfl, rfl, rfl, rfl, rfl⟩

/-- C1: every point fixed by `fix_point` carries `p_calculated`
`low + (signal - 4)·span/16` in I/P mode and `low + signal·span/10` in V/P
mode and none in relay mode, with `span = |high - low|` guarded to `1` when
zero; its percent error is `|p_calculated - measured pressure| / span · 100`;
and its verdict is Pass exactly when the percent error is at most
`max_allowed_error_percent` (boundary inclusive) or no calculated pressure
exists. -/
theorem c1_fix_point_transfer (st : EngineState) (low high maxErr : ℚ) (mode : Mode)
    (currentP currentSignal now : ℚ)
    (hfree : st.calib_points.length < st.points_plan.length) :
    ∃ st' pt,
      fix_point st low high maxErr mode currentP currentSignal now = some st'
      ∧ st'.calib_points = st.calib_points ++ [pt]
      ∧ pt.p_calc =
          (match mode with
            | .IP =>
              some (low + (currentSignal - 4) * (if |high - low| = 0 then 1 else |high - low|) / 16)
            | .VP =>
              some (low + currentSignal * (if |high - low| = 0 then 1 else |high - low|) / 10)
            | .Relay => none)
      ∧ pt.pg =
          pt.p_calc.map
            (fun pc => |pc - currentP| / (if |high - low| = 0 then 1 else |high - low|) * 100)
      ∧ (pt.ok = true ↔ pt.pg = none ∨ ∃ e, pt.pg = some e ∧ e ≤ maxErr) := by
  refine ⟨_, fix_point_candidate st low high maxErr mode currentP currentSignal now,
    if_neg (not_le.mpr hfree), rfl, ?_, ?_, ?_⟩
  · cases mode <;> simp [fix_point_candidate]
  · cases mode <;> simp [fix_point_candidate]
  · cases mode <;> simp [fix_point_candidate]

/-- C1 witness: a concrete I/P fixation (span 10, signal 12 mA, measured
pressure 5) on a free slot. -/
theorem c1_fix_point_transfer_witness :
    (EngineState.mk [0, 10] [] none).calib_points.length <
      (EngineState.mk [0, 10] [] none).points_plan.length
    ∧ ∃ st' pt,
        fix_point (EngineState.mk [0, 10] [] none) 0 10 1 .IP 5 12 3 = some st'
        ∧ st'.calib_points = [] ++ [pt]
        ∧ pt.p_calc = some (0 + (12 - 4) * (if |(10 : ℚ) - 0| = 0 then 1 else |(10 : ℚ) - 0|) / 16)
        ∧ pt.pg =
            pt.p_calc.map
              (fun pc => |pc - 5| / (if |(10 : ℚ) - 0| = 0 then 1 else |(10 : ℚ) - 0|) * 100)
        ∧ (pt.ok = true ↔ pt.pg = none ∨ ∃ e, pt.pg = some e ∧ e ≤ 1) :=
  ⟨by simp, c1_fix_point_transfer (EngineState.mk [0, 10] [] none) 0 10 1 .IP 5 12 3 (by simp)⟩

/-! ### Helper lemmas for the monitoring buffer -/

/-- The last `n` elements of a list (what the slice `l[-n:]` keeps). -/
def lastN (n : ℕ) (l : List α) : List α := l.drop (l.length - n)

theorem lastN_of_le {n : ℕ} {l : List α} (h : l.length ≤ n) : lastN n l = l := by
  simp [lastN, Nat.sub_eq_zero_of_le h]

theorem length_lastN (n : ℕ) (l : List α) : (lastN n l).length = min n l.length := by
  simp [lastN]
  omega

theorem lastN_append_lastN (n : ℕ) (a b : List α) :
    lastN n (lastN n a ++ b) = lastN n (a ++ b) := by
  rcases le_or_lt a.length n with h | h
  · rw [lastN_of_le h]
  · have ha : (List.drop (a.length - n) a).length = n := by
      simp [List.length_drop]; omega
    unfold lastN
    rcases le_or_lt n b.length with hb | hb
    · have h1 : (List.drop (a.length - n) a ++ b).length - n =
          (List.drop (a.length - n) a).length + (b.length - n) := by
        simp [List.length_append, ha] <;> omega
      have h2 : (a ++ b).length - n = a.length + (b.length - n) := by
        simp [List.length_append] <;> omega
      rw [h1, List.drop_append, h2, List.drop_append]
    · have h1 : (List.drop (a.length - n) a ++ b).length - n = b.length := by
        simp [List.length_append, ha] <;> omega
      have h2 : (a ++ b).length - n ≤ a.length := by
        simp [List.length_append] <;> omega
      rw [h1, List.drop_append_of_le_length (by omega : b.length ≤ (List.drop (a.length - n) a).length),
        List.drop_append_of_le_length h2, List.drop_drop]
      congr 2
      simp [List.length_append]
      omega

/-- One `update_monitor` step on an in-sync, active, un-paused state: the
pressure list becomes the last 5000 entries of the old list plus the new
sample, the flags and length-sync are preserved, and min/max fold in `p`. -/
theorem update_monitor_step (st : MonState) (sig now p : ℚ)
    (hen : st.monitor_enabled = true) (hpa : st.monitor_paused = false)
    (hsync : st.monitor_times.length = st.monitor_pressures.length) :
    (update_monitor st sig now p).monitor_pressures =
      lastN 5000 (st.monitor_pressures ++ [p])
    ∧ (update_monitor st sig now p).monitor_times.length =
        (update_monitor st sig now p).monitor_pressures.length
    ∧ (update_monitor st sig now p).monitor_enabled = true
    ∧ (update_monitor st sig now p).monitor_paused = false := by
  rcases Nat.lt_or_ge 5000 (st.monitor_pressures.length + 1) with h | h
  · have hn : 5000 < st.monitor_pressures.length + 1 := h
    refine ⟨?_, ?_, ?_, ?_⟩ <;>
      simp [update_monitor, hen, hpa, hn, lastN, hsync] <;> omega
  · have hn : ¬5000 < st.monitor_pressures.length + 1 := by omega
    have hle : (st.monitor_pressures ++ [p]).length ≤ 5000 := by
      simp <;> omega
    refine ⟨?_, ?_, ?_, ?_⟩ <;>
      simp [update_monitor, hen, hpa, hn, lastN_of_le hle, hsync] <;> omega

/-- Running the monitor over a sample list from any active, un-paused,
in-sync state holding at most 5000 samples keeps the last 5000 pressures of
the whole history, in order. -/
theorem monitor_run_pressures (sig : ℚ) (ins : List (ℚ × ℚ)) :
    ∀ st : MonState, st.monitor_enabled = true → st.monitor_paused = false →
      st.monitor_times.length = st.monitor_pressures.length →
      st.monitor_pressures.length ≤ 5000 →
      (monitor_run st sig ins).monitor_pressures =
        lastN 5000 (st.monitor_pressures ++ ins.map Prod.snd) := by
  induction ins with
  | nil =>
    intro st hen hpa hsync hlen
    simp [monitor_run, lastN_of_le hlen]
  | cons i rest ih =>
    intro st hen hpa hsync hlen
    obtain ⟨h1, h2, h3, h4⟩ := update_monitor_step st sig i.1 i.2 hen hpa hsync
    have hlen' : (update_monitor st sig i.1 i.2).monitor_pressures.length ≤ 5000 := by
      rw [h1, length_lastN]
      exact min_le_left _ _
    have hrun : monitor_run st sig (i :: rest) =
        monitor_run (update_monitor st sig i.1 i.2) sig rest := rfl
    rw [hrun, ih (update_monitor st sig i.1 i.2) h3 h4 h2 hlen', h1]
    rw [lastN_append_lastN]
    simp

/-- C6: from a freshly started monitoring buffer, after any sequence of
appended samples the buffer holds at most 5000 pressures, and after appending
5001 samples it holds exactly the last 5000 of them in their original append
order (the oldest sample is evicted). -/
theorem c6_eviction (m0 : MonState) (sig now0 : ℚ) (ins : List (ℚ × ℚ)) :
    (monitor_run (start_monitoring m0 now0) sig ins).monitor_pressures.length ≤ 5000
    ∧ (ins.length = 5001 →
        (monitor_run (start_monitoring m0 now0) sig ins).monitor_pressures =
          (ins.map Prod.snd).drop 1) := by
  have h := monitor_run_pressures sig ins (start_monitoring m0 now0) rfl rfl rfl (Nat.zero_le _)
  constructor
  · rw [h, length_lastN]
    exact min_le_left _ _
  · intro hlen
    rw [h]
    unfold lastN
    simp [start_monitoring, hlen]

/-- C6 witness: appending 5001 concrete samples leaves exactly the last
5000. -/
theorem c6_eviction_witness :
    (List.replicate 5001 ((0 : ℚ), (1 : ℚ))).length = 5001
    ∧ (monitor_run (start_monitoring (MonState.mk false false none [] [] [] [] none none none none none) 0) 1
          (List.replicate 5001 ((0 : ℚ), (1 : ℚ)))).monitor_pressures =
        ((List.replicate 5001 ((0 : ℚ), (1 : ℚ))).map Prod.snd).drop 1 :=
  ⟨List.length_replicate 5001 _,
    (c6_eviction (MonState.mk false false none [] [] [] [] none none none none none) 1 0
        (List.replicate 5001 ((0 : ℚ), (1 : ℚ)))).2 (List.length_replicate 5001 _)⟩

/-- The running-minimum update of `update_monitor`:
`if self.monitor_min is None or p < self.monitor_min: self.monitor_min = p`. -/
def running_min (o : Option ℚ) (q : ℚ) : Option ℚ :=
  match o with
  | none => some q
  | some m => if q < m then some q else some m

/-- The running-maximum update of `update_monitor`. -/
def running_max (o : Option ℚ) (q : ℚ) : Option ℚ :=
  match o with
  | none => some q
  | some m => if m < q then some q else some m

theorem running_min_fold (p0 : ℚ) (ps : List ℚ) :
    ps.foldl running_min (some p0) = some (ps.foldl min p0) := by
  induction ps generalizing p0 with
  | nil => rfl
  | cons q rest ih =>
    have h : running_min (some p0) q = some (min p0 q) := by
      rcases lt_or_le q p0 with h | h
      · simp [running_min, h, min_eq_right h.le]
      · simp [running_min, not_lt.mpr h, min_eq_left h]
    simp only [List.foldl_cons, h, ih]

theorem running_max_fold (p0 : ℚ) (ps : List ℚ) :
    ps.foldl running_max (some p0) = some (ps.foldl max p0) := by
  induction ps generalizing p0 with
  | nil => rfl
  | cons q rest ih =>
    have h : running_max (some p0) q = some (max p0 q) := by
      rcases lt_or_le p0 q with h | h
      · simp [running_max, h, max_eq_right h.le]
      · simp [running_max, not_lt.mpr h, max_eq_left h]
    simp only [List.foldl_cons, h, ih]

theorem foldl_replicate_fixed {α : Type} (f : α → α → α) (a b : α) (h : f a b = a) :
    ∀ n : ℕ, (List.replicate n b).foldl f a = a := by
  intro n
  induction n with
  | zero => rfl
  | succ k ih => simp only [List.replicate_succ, List.foldl_cons, h, ih]

/-- The min/max statistics and the span display after a monitor run: the
statistics fold every accepted pressure in, independent of eviction, and the
span display is recomputed from them. -/
theorem monitor_run_minmax (sig : ℚ) (ins : List (ℚ × ℚ)) :
    ∀ st : MonState, st.monitor_enabled = true → st.monitor_paused = false →
      (st.mon_span_var = match st.monitor_min, st.monitor_max with
        | some a, some b => some (b - a)
        | _, _ => none) →
      (monitor_run st sig ins).monitor_min =
          (ins.map Prod.snd).foldl running_min st.monitor_min
      ∧ (monitor_run st sig ins).monitor_max =
          (ins.map Prod.snd).foldl running_max st.monitor_max
      ∧ ((monitor_run st sig ins).mon_span_var =
          match (monitor_run st sig ins).monitor_min,
            (monitor_run st sig ins).monitor_max with
          | some a, some b => some (b - a)
          | _, _ => none) := by
  induction ins with
  | nil =>
    intro st hen hpa hspan
    exact ⟨rfl, rfl, hspan⟩
  | cons i rest ih =>
    intro st hen hpa hspan
    have hmin : (update_monitor st sig i.1 i.2).monitor_min =
        running_min st.monitor_min i.2 := by
      simp [update_monitor, hen, hpa, running_min]
    have hmax : (update_monitor st sig i.1 i.2).monitor_max =
        running_max st.monitor_max i.2 := by
      simp [update_monitor, hen, hpa, running_max]
    have hspan' : (update_monitor st sig i.1 i.2).mon_span_var =
        match (update_monitor st sig i.1 i.2).monitor_min,
          (update_monitor st sig i.1 i.2).monitor_max with
        | some a, some b => some (b - a)
        | _, _ => none := by
      simp [update_monitor, hen, hpa]
    have hen' : (update_monitor st sig i.1 i.2).monitor_enabled = true := by
      simp [update_monitor, hen, hpa]
    have hpa' : (update_monitor st sig i.1 i.2).monitor_paused = false := by
      simp [update_monitor, hen, hpa]
    obtain ⟨g1, g2, g3⟩ := ih (update_monitor st sig i.1 i.2) hen' hpa' hspan'
    rw [hmin] at g1
    rw [hmax] at g2
    exact ⟨g1, g2, g3⟩


/-- C10: the monitoring min/max statistics run over every pressure accepted
since monitoring started — they are folds over the full input history, not
over the retained buffer — and the reported span is their difference; in a
concrete 5001-sample run whose first (and smallest) sample is evicted, the
reported minimum 0 is strictly below every one of the 5000 retained pressures
(all equal to 1). -/
theorem c10_alltime_minmax (m0 : MonState) (sig now0 t0 p0 : ℚ) (tps : List (ℚ × ℚ)) :
    (monitor_run (start_monitoring m0 now0) sig ((t0, p0) :: tps)).monitor_min =
        some ((tps.map Prod.snd).foldl min p0)
    ∧ (monitor_run (start_monitoring m0 now0) sig ((t0, p0) :: tps)).monitor_max =
        some ((tps.map Prod.snd).foldl max p0)
    ∧ (monitor_run (start_monitoring m0 now0) sig ((t0, p0) :: tps)).mon_span_var =
        some ((tps.map Prod.snd).foldl max p0 - (tps.map Prod.snd).foldl min p0)
    ∧ (monitor_run (start_monitoring m0 now0) sig
          ((t0, 0) :: List.replicate 5000 (t0, 1))).monitor_min = some 0
    ∧ (monitor_run (start_monitoring m0 now0) sig
          ((t0, 0) :: List.replicate 5000 (t0, 1))).monitor_pressures =
        List.replicate 5000 1
    ∧ (0 : ℚ) < 1 := by
  obtain ⟨h1, h2, h3⟩ :=
    monitor_run_minmax sig ((t0, p0) :: tps) (start_monitoring m0 now0) rfl rfl rfl
  have e1 : (((t0, p0) :: tps).map Prod.snd).foldl running_min none =
      some ((tps.map Prod.snd).foldl min p0) := by
    simp only [List.map_cons, List.foldl_cons]
    exact running_min_fold p0 _
  have e2 : (((t0, p0) :: tps).map Prod.snd).foldl running_max none =
      some ((tps.map Prod.snd).foldl max p0) := by
    simp only [List.map_cons, List.foldl_cons]
    exact running_max_fold p0 _
  obtain ⟨k1, _, _⟩ :=
    monitor_run_minmax sig ((t0, 0) :: List.replicate 5000 (t0, 1))
      (start_monitoring m0 now0) rfl rfl rfl
  have hmn0 : (start_monitoring m0 now0).monitor_min = none := rfl
  have e4 : (monitor_run (start_monitoring m0 now0) sig
      ((t0, 0) :: List.replicate 5000 (t0, 1))).monitor_min = some 0 := by
    rw [k1, hmn0]
    have emap : (((t0, (0 : ℚ)) :: List.replicate 5000 (t0, (1 : ℚ))).map Prod.snd) =
        (0 : ℚ) :: List.replicate 5000 (1 : ℚ) := by
      rw [List.map_cons, List.map_replicate]
    rw [emap, List.foldl_cons]
    have h0 : running_min none (0 : ℚ) = some 0 := rfl
    rw [h0, running_min_fold 0 _,
      foldl_replicate_fixed min (0 : ℚ) 1 (min_eq_left (by norm_num)) 5000]
  have e5 : (monitor_run (start_monitoring m0 now0) sig
      ((t0, 0) :: List.replicate 5000 (t0, 1))).monitor_pressures =
      List.replicate 5000 (1 : ℚ) := by
    have hp := monitor_run_pressures sig ((t0, 0) :: List.replicate 5000 (t0, 1))
      (start_monitoring m0 now0) rfl rfl rfl (Nat.zero_le _)
    rw [hp]
    unfold lastN
    have hpr0 : (start_monitoring m0 now0).monitor_pressures = [] := rfl
    rw [hpr0, List.nil_append, List.map_cons, List.map_replicate]
    have hl : ((t0, (0 : ℚ)).snd :: List.replicate 5000 ((t0, (1 : ℚ)).snd)).length - 5000 = 1 := by
      rw [List.length_cons, List.length_replicate]
    rw [hl, List.drop_one, List.tail_cons]
  refine ⟨h1.trans e1, h2.trans e2, ?_, e4, e5, by norm_num⟩
  rw [h3, h1.trans e1, h2.trans e2]



/-- C2 counterexample: `build_target_plan` rounds every value to 6 decimal
places, so for `low = 0`, `high = 1`, `point_count = 4` the second value is
`0.333333`, not the exact evenly-spaced value `low + 1·(high-low)/3 = 1/3`. -/
theorem c2_plan_counterexample :
    build_target_plan 0 1 4 false = [0, 333333 / 1000000, 666667 / 1000000, 1]
    ∧ ((333333 : ℚ) / 1000000) ≠ 0 + 1 * ((1 - 0) / ((4 : ℚ) - 1)) := by
  constructor
  · with_unfolding_all rfl
  · norm_num

/-- C2 amended: `build_target_plan` returns the empty plan when
`point_count < 2` or `high = low`; otherwise the forward leg holds
`point_count` values, the `i`-th being `low + i·step` with
`step = (high-low)/(point_count-1)` **rounded to 6 decimal places**, followed
(when the reverse flag is set) by the forward leg reversed with the shared
endpoint removed, for total length `2·point_count - 1`; the two concrete
example plans of the claim are exact and hold as stated. -/
theorem c2_plan_amended (low high : ℚ) (n : ℤ) (rev : Bool) :
    ((n < 2 ∨ high = low) → build_target_plan low high n rev = [])
    ∧ (¬(n < 2 ∨ high = low) →
        ∃ fwd : List ℚ,
          build_target_plan low high n rev =
            fwd ++ (if rev then fwd.dropLast.reverse else [])
          ∧ fwd.length = n.toNat
          ∧ (∀ i : ℕ, i < n.toNat →
              fwd.getD i 0 = round6 (low + (i : ℚ) * ((high - low) / ((n : ℚ) - 1))))
          ∧ (build_target_plan low high n rev).length =
              (if rev then 2 * n.toNat - 1 else n.toNat))
    ∧ build_target_plan 0 10 5 false = [0, 5 / 2, 5, 15 / 2, 10]
    ∧ build_target_plan 0 10 5 true = [0, 5 / 2, 5, 15 / 2, 10, 15 / 2, 5, 5 / 2, 0] := by
  refine ⟨fun h => by simp [build_target_plan, h], fun h => ?_,
    by with_unfolding_all rfl, by with_unfolding_all rfl⟩
  have hplan : build_target_plan low high n rev =
      ((List.range n.toNat).map
          (fun i : ℕ => round6 (low + (i : ℚ) * ((high - low) / ((n : ℚ) - 1))))) ++
        (if rev then ((List.range n.toNat).map
          (fun i : ℕ => round6 (low + (i : ℚ) * ((high - low) / ((n : ℚ) - 1))))).dropLast.reverse
         else []) := by
    cases rev <;> simp [build_target_plan, h]
  refine ⟨_, hplan, ?_, ?_, ?_⟩
  · rw [List.length_map, List.length_range]
  · intro i hi
    rw [List.getD_eq_getElem?_getD, List.getElem?_map, List.getElem?_range hi]
    rfl
  · rw [hplan]
    push_neg at h
    cases rev
    · simp
    · simp
      omega

/-- C2 witness: the amended characterization instantiated at
`low = 0`, `high = 1`, `point_count = 4`, forward only. -/
theorem c2_plan_amended_witness :
    ¬((4 : ℤ) < 2 ∨ (1 : ℚ) = 0)
    ∧ (∃ fwd : List ℚ,
        build_target_plan 0 1 4 false =
          fwd ++ (if false then fwd.dropLast.reverse else [])
        ∧ fwd.length = (4 : ℤ).toNat
        ∧ (∀ i : ℕ, i < (4 : ℤ).toNat →
            fwd.getD i 0 = round6 (0 + (i : ℚ) * ((1 - 0) / (((4 : ℤ) : ℚ) - 1))))
        ∧ (build_target_plan 0 1 4 false).length =
            (if false then 2 * (4 : ℤ).toNat - 1 else (4 : ℤ).toNat)) :=
  ⟨by norm_num, (c2_plan_amended 0 1 4 false).2.1 (by norm_num)⟩



/-! ### Helper lemma for the frame parser -/

/-- A well-formed frame for the fixed station address at the scan position
parses in one loop iteration, for any fuel and any trailing bytes. -/
theorem readFrameAux_frame (f : ℕ) (payload rest : List ℕ)
    (h20 : 20 ≤ payload.length + 7 + rest.length) :
    readFrameAux (f + 1)
      (0x55 :: 0x55 :: ADDR :: payload.length ::
        (payload ++ [cs (ADDR :: payload.length :: payload)] ++ [0xAA, 0xAA] ++ rest)) =
      some payload := by
  have hassoc : (payload ++ [cs (ADDR :: payload.length :: payload)] ++ [0xAA, 0xAA] ++ rest) =
      payload ++ ([cs (ADDR :: payload.length :: payload)] ++ ([0xAA, 0xAA] ++ rest)) := by
    simp [List.append_assoc]
  have hchunk : (payload ++ [cs (ADDR :: payload.length :: payload)] ++ [0xAA, 0xAA] ++ rest).take
      (payload.length + 3) = payload ++ [cs (ADDR :: payload.length :: payload), 0xAA, 0xAA] := by
    rw [hassoc, List.take_append]
    simp
  have hdata : (payload ++ [cs (ADDR :: payload.length :: payload), 0xAA, 0xAA]).take
      payload.length = payload := List.take_left payload _
  have htrail : (payload ++ [cs (ADDR :: payload.length :: payload), 0xAA, 0xAA]).drop
      (payload.length + 1) = [0xAA, 0xAA] := by
    rw [List.drop_append]
    simp
  have hcs : (payload ++ [cs (ADDR :: payload.length :: payload), 0xAA, 0xAA]).getD
      payload.length 0 = cs (ADDR :: payload.length :: payload) := by
    rw [List.getD_eq_getElem?_getD, List.getElem?_append_right (le_refl payload.length)]
    simp
  have hlen20 : 20 ≤ (0x55 :: 0x55 :: ADDR :: payload.length ::
      (payload ++ [cs (ADDR :: payload.length :: payload)] ++ [0xAA, 0xAA] ++ rest)).length := by
    simp
    omega
  have hchl : ¬((payload ++ [cs (ADDR :: payload.length :: payload), 0xAA, 0xAA]).length <
      payload.length + 3) := by
    simp
  simp only [readFrameAux, hchunk, hdata, htrail, hcs]
  rw [if_pos hlen20]
  simp [hchl]

/-- C3 counterexample: the claim's round-trip fails for address bytes other
than the fixed station address `0x01` — a checksum-correct frame for address
`0x00` is discarded by the `addr != ADDR` resynchronization — and it also
fails for short frames presented alone, since the parser does not attempt a
parse with fewer than 20 bytes waiting (an empty-payload frame is only 7
bytes). -/
theorem c3_roundtrip_counterexample :
    read_frame (mkFrame 0 (List.replicate 13 0)) ≠ some (List.replicate 13 0)
    ∧ read_frame (mkFrame 0 (List.replicate 13 0)) = none
    ∧ read_frame (mkFrame ADDR []) ≠ some []
    ∧ read_frame (mkFrame ADDR []) = none :=
  ⟨by decide, by decide, by decide, by decide⟩

/-- C3 amended: for the fixed station address `0x01`, any payload of byte
values whose length fits the length byte, and any trailing bytes, a frame
assembled as preamble `0x55 0x55`, address, length, payload, XOR checksum of
`{address, length, payload bytes}` and trailer `0xAA 0xAA`, presented at the
front of the input stream, round-trips through `read_frame` — provided at
least 20 bytes are waiting in total. -/
theorem c3_roundtrip_amended (payload rest : List ℕ)
    (hlen : payload.length ≤ 255) (hbytes : ∀ b ∈ payload, b < 256)
    (htotal : 20 ≤ (mkFrame ADDR payload ++ rest).length) :
    read_frame (mkFrame ADDR payload ++ rest) = some payload := by
  have hs : mkFrame ADDR payload ++ rest =
      0x55 :: 0x55 :: ADDR :: payload.length ::
        (payload ++ [cs (ADDR :: payload.length :: payload)] ++ [0xAA, 0xAA] ++ rest) := by
    simp [mkFrame]
  have hlength : (mkFrame ADDR payload ++ rest).length =
      (payload.length + 6 + rest.length) + 1 := by
    simp [mkFrame]
    omega
  have h20 : 20 ≤ payload.length + 7 + rest.length := by
    rw [hlength] at htotal
    omega
  unfold read_frame
  rw [hlength, hs]
  exact readFrameAux_frame _ payload rest h20

/-- C3 witness: a 13-byte payload of value 7 for the station address, with no
trailing bytes (exactly 20 bytes on the wire). -/
theorem c3_roundtrip_amended_witness :
    ((List.replicate 13 7 : List ℕ).length ≤ 255
      ∧ (∀ b ∈ (List.replicate 13 7 : List ℕ), b < 256)
      ∧ 20 ≤ (mkFrame ADDR (List.replicate 13 7) ++ []).length)
    ∧ read_frame (mkFrame ADDR (List.replicate 13 7) ++ []) = some (List.replicate 13 7) :=
  ⟨⟨by decide, by decide, by decide⟩,
    c3_roundtrip_amended (List.replicate 13 7) [] (by decide) (by decide) (by decide)⟩

/-- C4 counterexample: a preamble mismatch consumes two bytes, not one — a
valid 20-byte frame for the station address placed one byte after the scan
position is lost (the parser returns nothing), even though the same frame at
the scan position parses. -/
theorem c4_resync_counterexample :
    read_frame ((0 : ℕ) :: mkFrame ADDR (List.replicate 13 0)) = none
    ∧ read_frame (mkFrame ADDR (List.replicate 13 0)) = some (List.replicate 13 0) :=
  ⟨by decide, by decide⟩

/-- C4 amended: while scanning for the preamble `0x55 0x55`, a mismatch
causes the parser to consume exactly the **two** bytes it just read and
resume scanning at the byte after them; consequently a valid frame that
begins one byte after the scan position can be lost to resynchronization. -/
theorem c4_resync_amended (b0 b1 : ℕ) (s : List ℕ) (f : ℕ)
    (h20 : 20 ≤ (b0 :: b1 :: s).length)
    (hmis : ¬(b0 = 0x55 ∧ b1 = 0x55)) :
    readFrameAux (f + 1) (b0 :: b1 :: s) = readFrameAux f s := by
  simp only [readFrameAux]
  rw [if_pos h20, if_neg hmis]

/-- C4 witness: a concrete mismatching byte pair followed by 20 filler
bytes. -/
theorem c4_resync_amended_witness :
    (20 ≤ ((0 : ℕ) :: 0 :: List.replicate 20 7).length
      ∧ ¬((0 : ℕ) = 0x55 ∧ (0 : ℕ) = 0x55))
    ∧ readFrameAux 6 ((0 : ℕ) :: 0 :: List.replicate 20 7) =
        readFrameAux 5 (List.replicate 20 7) :=
  ⟨⟨by decide, by decide⟩,
    c4_resync_amended 0 0 (List.replicate 20 7) 5 (by decide) (by decide)⟩


end AAL960
